import Mathlib

/-!
Verification of the state regeneration and caching core of a beacon-chain
client (QueuedStateRegenerator, chain/regen/queued.ts), together with the
Capella withdrawal and BLS-to-execution-change helpers.

The TypeScript source is shallowly embedded: hex roots become strings,
slots and epochs become naturals (JavaScript Math.max(e - 1, 0) coincides
with truncated subtraction on Nat), the fork choice, caches and persistent
reader become function-valued collaborators, thrown errors become Except,
and the unbounded while loop of the dependant-root walk takes an explicit
fuel parameter.
-/

abbrev RootHex := String
abbrev Epoch := Nat
abbrev Slot := Nat
abbrev RegenCaller := String
abbrev AttesterShuffling := Nat
abbrev ProposerShuffling := Nat

/-- SLOTS_PER_EPOCH from lodestar-params (mainnet preset). -/
def SLOTS_PER_EPOCH : Nat := 32

/-- computeStartSlotAtEpoch from lodestar-beacon-state-transition. -/
def computeStartSlotAtEpoch (epoch : Epoch) : Slot :=
  epoch * SLOTS_PER_EPOCH

/-- computeEpochAtSlot from lodestar-beacon-state-transition. -/
def computeEpochAtSlot (slot : Slot) : Epoch :=
  slot / SLOTS_PER_EPOCH

/-- IProtoBlock summary as read by the regenerator: block root, parent root,
state root, slot and the target root (first block of the block epoch). -/
structure ProtoBlock where
  slot : Slot
  blockRoot : RootHex
  parentRoot : RootHex
  stateRoot : RootHex
  targetRoot : RootHex
deriving DecidableEq, Repr

/-- Checkpoint in hex form, as returned by forkChoice.getFinalizedCheckpoint. -/
structure CheckpointHex where
  epoch : Epoch
  rootHex : RootHex
deriving DecidableEq, Repr

/-- Read-only fork choice interface consumed by the regenerator:
getBlockHex and getFinalizedCheckpoint. -/
structure ForkChoice where
  getBlockHex : RootHex → Option ProtoBlock
  finalizedCheckpoint : CheckpointHex

/-- Errors thrown by the regeneration core. fuelExhausted is a model
artifact standing for nontermination of the source while loop. -/
inductive RegenErr where
  | blockNotInForkChoice (root : RootHex)
  | beforeFinalized (finalizedEpoch : Epoch)
  | unresolvable (blockRoot : RootHex) (slot : Slot)
  | targetBlockNotFound
  | queueFull
  | persistentNotFound
  | fuelExhausted
deriving DecidableEq, Repr

/-- The while loop of getDependantRootAtEpoch (queued.ts lines 453-466):
walk ancestors of fromBlock; a block at exactly the target slot yields its
parent root, a block below the target slot yields its own root, and
otherwise the walk steps to the parent when the block is first in its epoch
(blockRoot equals targetRoot) and to the target root otherwise. A missing
ancestor reproduces the throw of lines 485-490. -/
def getDependantRootAtEpochLoop (fc : ForkChoice) (fromBlock : ProtoBlock) (epoch : Epoch)
    (dependantRootNextSlot : Slot) : Nat → Option ProtoBlock → Except RegenErr RootHex
  | _, none =>
    if epoch < fc.finalizedCheckpoint.epoch then
      .error (.beforeFinalized fc.finalizedCheckpoint.epoch)
    else
      .error (.unresolvable fromBlock.blockRoot fromBlock.slot)
  | 0, some _ => .error .fuelExhausted
  | Nat.succ fuel, some block =>
    if block.slot = dependantRootNextSlot then
      .ok block.parentRoot
    else if block.slot < dependantRootNextSlot then
      .ok block.blockRoot
    else if block.blockRoot = block.targetRoot then
      getDependantRootAtEpochLoop fc fromBlock epoch dependantRootNextSlot fuel
        (fc.getBlockHex block.parentRoot)
    else
      getDependantRootAtEpochLoop fc fromBlock epoch dependantRootNextSlot fuel
        (fc.getBlockHex block.targetRoot)

/-- getDependantRootAtEpoch (queued.ts lines 439-491): for epoch at most 0
return the finalized root when the finalized epoch is 0 and fail
beforeFinalized otherwise; for later epochs run the ancestor walk from
fromBlock toward the first slot of the epoch. -/
def getDependantRootAtEpoch (fc : ForkChoice) (fromBlock : ProtoBlock) (epoch : Epoch)
    (fuel : Nat) : Except RegenErr RootHex :=
  if epoch ≤ 0 then
    if fc.finalizedCheckpoint.epoch = 0 then
      .ok fc.finalizedCheckpoint.rootHex
    else
      .error (.beforeFinalized fc.finalizedCheckpoint.epoch)
  else
    getDependantRootAtEpochLoop fc fromBlock epoch (computeStartSlotAtEpoch epoch) fuel
      (some fromBlock)

/-- The dependant-root algorithm exactly as the specification words it for
epochs at least 1, with target_slot the first slot of the epoch: starting
at a block, if its slot equals target_slot return its parent_root; if its
slot is below target_slot return its block_root; otherwise advance to the
parent_root when block_root equals target_root and to target_root
otherwise, and repeat. Missing-ancestor failures follow the resolver. -/
def dependantRootSpecWalk (fc : ForkChoice) (fromBlock : ProtoBlock) (epoch : Epoch)
    (targetSlot : Slot) : Nat → ProtoBlock → Except RegenErr RootHex
  | 0, _ => .error .fuelExhausted
  | Nat.succ fuel, b =>
    if b.slot = targetSlot then
      .ok b.parentRoot
    else if b.slot < targetSlot then
      .ok b.blockRoot
    else
      match fc.getBlockHex (if b.blockRoot = b.targetRoot then b.parentRoot else b.targetRoot) with
      | some next => dependantRootSpecWalk fc fromBlock epoch targetSlot fuel next
      | none =>
        if epoch < fc.finalizedCheckpoint.epoch then
          .error (.beforeFinalized fc.finalizedCheckpoint.epoch)
        else
          .error (.unresolvable fromBlock.blockRoot fromBlock.slot)

/-- Top-level form of the specification algorithm for dependant roots at
epochs at least 1. -/
def dependantRootAtEpochSpec (fc : ForkChoice) (fromBlock : ProtoBlock) (epoch : Epoch)
    (fuel : Nat) : Except RegenErr RootHex :=
  dependantRootSpecWalk fc fromBlock epoch (computeStartSlotAtEpoch epoch) fuel fromBlock

lemma getDependantRootAtEpochLoop_eq_specWalk (fc : ForkChoice) (fromBlock : ProtoBlock)
    (epoch : Epoch) (targetSlot : Slot) :
    ∀ (fuel : Nat) (b : ProtoBlock),
      getDependantRootAtEpochLoop fc fromBlock epoch targetSlot fuel (some b) =
        dependantRootSpecWalk fc fromBlock epoch targetSlot fuel b := by
  intro fuel
  induction fuel with
  | zero => intro b; rfl
  | succ fuel ih =>
    intro b
    rw [getDependantRootAtEpochLoop, dependantRootSpecWalk]
    by_cases h1 : b.slot = targetSlot
    · simp [h1]
    · by_cases h2 : b.slot < targetSlot
      · simp [h1, h2]
      · by_cases h3 : b.blockRoot = b.targetRoot
        · simp only [h1, h2, h3, if_false, if_true, if_pos, if_neg, not_false_iff]
          cases hnext : fc.getBlockHex b.parentRoot with
          | some next => simp [hnext, ih]
          | none => simp [hnext, getDependantRootAtEpochLoop]
        · simp only [h1, h2, h3, if_false, if_neg, not_false_iff]
          cases hnext : fc.getBlockHex b.targetRoot with
          | some next => simp [hnext, ih]
          | none => simp [hnext, getDependantRootAtEpochLoop]

/-- C1: for every epoch at least 1, getDependantRootAtEpoch follows exactly
the walk the specification describes, with target_slot the first slot of
the epoch: a block at target_slot yields its parent_root, a block below
target_slot yields its own block_root, and otherwise the walk advances to
parent_root when block_root equals target_root and to target_root
otherwise, repeating. -/
theorem c1_dependant_root_follows_spec_algorithm (fc : ForkChoice) (fromBlock : ProtoBlock)
    (epoch : Epoch) (fuel : Nat) (h : 1 ≤ epoch) :
    getDependantRootAtEpoch fc fromBlock epoch fuel =
      dependantRootAtEpochSpec fc fromBlock epoch fuel := by
  have hpos : ¬ epoch ≤ 0 := Nat.not_le.mpr h
  rw [getDependantRootAtEpoch, dependantRootAtEpochSpec, if_neg hpos,
    getDependantRootAtEpochLoop_eq_specWalk]

def forkChoiceW1 : ForkChoice where
  getBlockHex := fun root =>
    if root = "genesis" then some ⟨0, "genesis", "pregenesis", "sg", "genesis"⟩
    else if root = "blockA" then some ⟨5, "blockA", "genesis", "sa", "blockA"⟩
    else if root = "blockB" then some ⟨40, "blockB", "blockA", "sb", "blockB"⟩
    else if root = "blockC" then some ⟨45, "blockC", "blockB", "sc", "blockB"⟩
    else none
  finalizedCheckpoint := ⟨0, "genesis"⟩

def blockW1 : ProtoBlock := ⟨45, "blockC", "blockB", "sc", "blockB"⟩

/-- Witness for C1: evaluating both the source resolver and the
specification walk on a small concrete fork-choice chain at epoch 1. -/
theorem c1_dependant_root_follows_spec_algorithm_witness :
    1 ≤ 1 ∧
      getDependantRootAtEpoch forkChoiceW1 blockW1 1 6 =
        dependantRootAtEpochSpec forkChoiceW1 blockW1 1 6 :=
  ⟨by decide, c1_dependant_root_follows_spec_algorithm forkChoiceW1 blockW1 1 6 (by decide)⟩

/-- C7: at epoch 0 the resolver returns the finalized root when the
finalized epoch is 0 and fails beforeFinalized otherwise; the closed form
does not depend on the starting block or the fuel, so no ancestor is
walked. -/
theorem c7_dependant_root_epoch_zero (fc : ForkChoice) (fromBlock : ProtoBlock) (fuel : Nat) :
    getDependantRootAtEpoch fc fromBlock 0 fuel =
      (if fc.finalizedCheckpoint.epoch = 0 then
        Except.ok fc.finalizedCheckpoint.rootHex
      else
        Except.error (RegenErr.beforeFinalized fc.finalizedCheckpoint.epoch)) ∧
    (∀ (b : ProtoBlock) (f : Nat),
      getDependantRootAtEpoch fc fromBlock 0 fuel = getDependantRootAtEpoch fc b 0 f) := by
  constructor
  · rw [getDependantRootAtEpoch, if_pos (Nat.le_refl 0)]
  · intro b f
    rw [getDependantRootAtEpoch, getDependantRootAtEpoch, if_pos (Nat.le_refl 0),
      if_pos (Nat.le_refl 0)]

/-- CachedBeaconState as read by the regenerator: its slot and the
shuffling views the shuffling lookups return. The hash tree root is
computed by an injected function on RegenDeps, keeping hashing opaque. -/
structure BeaconState where
  slot : Slot
  proposers : ProposerShuffling
  currentShuffling : AttesterShuffling
  nextShuffling : AttesterShuffling
  previousShuffling : AttesterShuffling
deriving DecidableEq, Repr

/-- HeadSummary (queued.ts lines 32-44). -/
structure HeadSummary where
  stateRoot : RootHex
  blockRoot : RootHex
  slot : Slot
  epoch : Epoch
  targetRoot : RootHex
  dependantRootNext : RootHex
  dependantRootCurr : RootHex
  dependantRootPrev : RootHex
deriving DecidableEq, Repr

/-- Mutable fields of QueuedStateRegenerator tracked by the claims: the
head summary and the nullable head state. -/
structure RegenState where
  head : HeadSummary
  headState : Option BeaconState
deriving DecidableEq, Repr

/-- Beacon block fields read by getPreState. -/
structure BeaconBlock where
  slot : Slot
  parentRoot : RootHex
deriving DecidableEq, Repr

/-- Injected collaborators of QueuedStateRegenerator: the fork choice, the
state cache (get by state root), the checkpoint state cache (getLatest by
block root up to an epoch bound, none meaning Infinity), the dependant-root
weak-reference index (a bucket is the list of deref results of its weak
references, none marking a collected state), the persistent checkpoint
state reader, and the hash-tree-root function. -/
structure RegenDeps where
  forkChoice : ForkChoice
  stateCache : RootHex → Option BeaconState
  checkpointGetLatest : RootHex → Option Epoch → Option BeaconState
  dependantRootCacheNext : Epoch → RootHex → List (Option BeaconState)
  readCheckpointState : Epoch → RootHex → Option BeaconState
  hashTreeRoot : BeaconState → RootHex

/-- setHead (queued.ts lines 279-318). Computes the three dependant roots
(a throw there aborts before the head summary is replaced), replaces the
head summary, then resolves the head state: the candidate when its slot and
hash tree root match the head block, else the latest checkpoint state for
the head block root or the state-cache entry for the head state root. When
none is available headState becomes null and an asynchronous getState for
head.stateRoot is issued; the returned Option RootHex is that pending
request. -/
def setHead (deps : RegenDeps) (_st : RegenState) (head : ProtoBlock)
    (potentialHeadState : Option BeaconState) (fuel : Nat) :
    Except RegenErr (RegenState × Option RootHex) := do
  let headEpoch := computeEpochAtSlot head.slot
  let dependantRootNext ← getDependantRootAtEpoch deps.forkChoice head headEpoch fuel
  let dependantRootCurr ← getDependantRootAtEpoch deps.forkChoice head (headEpoch - 1) fuel
  let dependantRootPrev ← getDependantRootAtEpoch deps.forkChoice head (headEpoch - 2) fuel
  let newHead : HeadSummary :=
    { blockRoot := head.blockRoot
      stateRoot := head.stateRoot
      slot := head.slot
      epoch := headEpoch
      targetRoot := head.targetRoot
      dependantRootNext := dependantRootNext
      dependantRootCurr := dependantRootCurr
      dependantRootPrev := dependantRootPrev }
  let cacheFallback : Option BeaconState :=
    match deps.checkpointGetLatest head.blockRoot none with
    | some s => some s
    | none => deps.stateCache head.stateRoot
  let headState : Option BeaconState :=
    match potentialHeadState with
    | some s =>
      if head.slot = s.slot ∧ head.stateRoot = deps.hashTreeRoot s then some s else cacheFallback
    | none => cacheFallback
  match headState with
  | some hs => return ({head := newHead, headState := some hs}, none)
  | none => return ({head := newHead, headState := none}, some head.stateRoot)

/-- The then-callback installed by setHead on its asynchronous getState
(queued.ts lines 310-313): when the request resolves, assign headState
unconditionally. -/
def resolveHeadStateRequest (st : RegenState) (state : BeaconState) : RegenState :=
  { st with headState := some state }

/-- getHeadState (queued.ts lines 108-114): headState when set, otherwise
the state-cache entry for the head state root (guarded by the truthiness of
that root, so the empty string skips the fallback). -/
def getHeadState (deps : RegenDeps) (st : RegenState) : Option BeaconState :=
  match st.headState with
  | some s => some s
  | none => if st.head.stateRoot = "" then none else deps.stateCache st.head.stateRoot

/-- C6: when setHead is given a candidate state whose slot equals the head
block slot and whose hash tree root equals the head block state root, and
it returns, then the candidate is installed as headState with no
asynchronous request issued, and getHeadState returns it synchronously. -/
theorem c6_set_head_with_matching_state_synchronous (deps : RegenDeps) (st : RegenState)
    (b : ProtoBlock) (s : BeaconState) (fuel : Nat) (st' : RegenState) (pending : Option RootHex)
    (hslot : s.slot = b.slot) (hroot : deps.hashTreeRoot s = b.stateRoot)
    (hret : setHead deps st b (some s) fuel = .ok (st', pending)) :
    st'.headState = some s ∧ pending = none ∧ getHeadState deps st' = some s := by
  rw [setHead] at hret
  cases h1 : getDependantRootAtEpoch deps.forkChoice b (computeEpochAtSlot b.slot) fuel with
  | error e => rw [h1] at hret; exact absurd hret (by simp [Bind.bind, Except.bind])
  | ok r1 =>
  cases h2 : getDependantRootAtEpoch deps.forkChoice b (computeEpochAtSlot b.slot - 1) fuel with
  | error e => rw [h1, h2] at hret; exact absurd hret (by simp [Bind.bind, Except.bind])
  | ok r2 =>
  cases h3 : getDependantRootAtEpoch deps.forkChoice b (computeEpochAtSlot b.slot - 2) fuel with
  | error e => rw [h1, h2, h3] at hret; exact absurd hret (by simp [Bind.bind, Except.bind])
  | ok r3 =>
  rw [h1, h2, h3] at hret
  simp only [Bind.bind, Except.bind, if_pos (And.intro hslot.symm hroot.symm)] at hret
  simp only [Pure.pure, Except.pure, Except.ok.injEq, Prod.mk.injEq] at hret
  obtain ⟨hst, hpend⟩ := hret
  refine ⟨?_, hpend.symm, ?_⟩
  · rw [← hst]
  · rw [getHeadState, ← hst]

def forkChoiceW6 : ForkChoice where
  getBlockHex := fun _ => none
  finalizedCheckpoint := ⟨0, "finroot"⟩

def depsW6 : RegenDeps where
  forkChoice := forkChoiceW6
  stateCache := fun _ => none
  checkpointGetLatest := fun _ _ => none
  dependantRootCacheNext := fun _ _ => []
  readCheckpointState := fun _ _ => none
  hashTreeRoot := fun _ => "hroot6"

def blockW6 : ProtoBlock := ⟨0, "b6", "p6", "hroot6", "b6"⟩

def stateW6 : BeaconState := ⟨0, 1, 2, 3, 4⟩

def headW0 : HeadSummary := ⟨"", "", 0, 0, "", "", "", ""⟩

/-- Witness for C6: a concrete setHead call with a matching candidate state
installs it synchronously. -/
theorem c6_set_head_with_matching_state_synchronous_witness :
    stateW6.slot = blockW6.slot ∧ depsW6.hashTreeRoot stateW6 = blockW6.stateRoot ∧
    (∀ st' pending, setHead depsW6 ⟨headW0, none⟩ blockW6 (some stateW6) 1 = .ok (st', pending) →
      st'.headState = some stateW6 ∧ pending = none ∧ getHeadState depsW6 st' = some stateW6) :=
  ⟨by decide, by decide, fun st' pending hret =>
    c6_set_head_with_matching_state_synchronous depsW6 ⟨headW0, none⟩ blockW6 stateW6 1 st'
      pending (by decide) (by decide) hret⟩

def depsW2 : RegenDeps where
  forkChoice := ⟨fun _ => none, ⟨0, "fin"⟩⟩
  stateCache := fun _ => none
  checkpointGetLatest := fun _ _ => none
  dependantRootCacheNext := fun _ _ => []
  readCheckpointState := fun _ _ => none
  hashTreeRoot := fun _ => "hr1"

def blockW2a : ProtoBlock := ⟨0, "b1", "p1", "sr1", "b1"⟩

def blockW2b : ProtoBlock := ⟨0, "b2", "p2", "sr2", "b2"⟩

def stateW2 : BeaconState := ⟨0, 9, 9, 9, 9⟩

def regenStW2a : RegenState := ⟨⟨"sr1", "b1", 0, 0, "b1", "fin", "fin", "fin"⟩, none⟩

def regenStW2b : RegenState := ⟨⟨"sr2", "b2", 0, 0, "b2", "fin", "fin", "fin"⟩, none⟩

/-- C2: concrete trace showing the source has no compare-and-set guard on
head.state_root. setHead for block b1 misses all caches and issues an
asynchronous getState for state root sr1; setHead for block b2 (state root
sr2) runs before that request resolves; the late completion for b1 is then
installed as headState by the unconditional then-callback even though the
head now points at sr2. -/
theorem c2_stale_head_state_installed :
    setHead depsW2 ⟨headW0, none⟩ blockW2a none 1 = .ok (regenStW2a, some "sr1") ∧
    setHead depsW2 regenStW2a blockW2b none 1 = .ok (regenStW2b, some "sr2") ∧
    ("sr1" : RootHex) ≠ "sr2" ∧
    (resolveHeadStateRequest regenStW2b stateW2).headState = some stateW2 ∧
    (resolveHeadStateRequest regenStW2b stateW2).head.stateRoot = "sr2" ∧
    depsW2.hashTreeRoot stateW2 ≠ "sr2" := by
  refine ⟨by rfl, by rfl, by decide, by rfl, by rfl, by decide⟩

/-- The four regen request kinds queued by the facade (RegenRequest in
queued.ts). -/
inductive RegenRequest where
  | getPreState (block : BeaconBlock) (rCaller : RegenCaller)
  | getCheckpointState (epoch : Epoch) (root : RootHex) (rCaller : RegenCaller)
  | getBlockSlotState (blockRoot : RootHex) (slot : Slot) (rCaller : RegenCaller)
  | getState (stateRoot : RootHex) (rCaller : RegenCaller)
deriving DecidableEq, Repr

/-- Outcome of a facade fast path: a state served synchronously from a
cache, or a request pushed onto the job queue. -/
inductive RegenOutcome where
  | cached (s : BeaconState)
  | enqueued (req : RegenRequest)
deriving DecidableEq, Repr

/-- getPreState (queued.ts lines 324-364): fail blockNotInForkChoice when
the parent is not in the fork choice; when the parent epoch is below the
block epoch probe the checkpoint cache for the latest state at the parent
root up to the block epoch; when the epochs are equal probe the state cache
at the parent state root; otherwise enqueue the request. -/
def getPreState (deps : RegenDeps) (block : BeaconBlock) (rCaller : RegenCaller) :
    Except RegenErr RegenOutcome :=
  let parentRoot := block.parentRoot
  match deps.forkChoice.getBlockHex parentRoot with
  | none => .error (.blockNotInForkChoice parentRoot)
  | some parentBlock =>
    let parentEpoch := computeEpochAtSlot parentBlock.slot
    let blockEpoch := computeEpochAtSlot block.slot
    match (if parentEpoch < blockEpoch then
        deps.checkpointGetLatest parentRoot (some blockEpoch) else none) with
    | some checkpointState => .ok (.cached checkpointState)
    | none =>
      match (if parentEpoch = blockEpoch then deps.stateCache parentBlock.stateRoot else none) with
      | some state => .ok (.cached state)
      | none => .ok (.enqueued (.getPreState block rCaller))

/-- getState (queued.ts lines 394-406): serve from the state cache when
present, otherwise enqueue. -/
def getState (deps : RegenDeps) (stateRoot : RootHex) (rCaller : RegenCaller) : RegenOutcome :=
  match deps.stateCache stateRoot with
  | some state => .cached state
  | none => .enqueued (.getState stateRoot rCaller)

/-- The getPreState routing exactly as the claim words it: failure when the
parent is absent; a checkpoint-cache hit returned without enqueueing when
the parent epoch is strictly below the block epoch; a state-cache hit
returned without enqueueing when the epochs coincide; the request enqueued
in all remaining cases. -/
def getPreStateSpec (deps : RegenDeps) (block : BeaconBlock) (rCaller : RegenCaller) :
    Except RegenErr RegenOutcome :=
  match deps.forkChoice.getBlockHex block.parentRoot with
  | none => .error (.blockNotInForkChoice block.parentRoot)
  | some parent =>
    if computeEpochAtSlot parent.slot < computeEpochAtSlot block.slot then
      match deps.checkpointGetLatest block.parentRoot (some (computeEpochAtSlot block.slot)) with
      | some s => .ok (.cached s)
      | none => .ok (.enqueued (.getPreState block rCaller))
    else if computeEpochAtSlot parent.slot = computeEpochAtSlot block.slot then
      match deps.stateCache parent.stateRoot with
      | some s => .ok (.cached s)
      | none => .ok (.enqueued (.getPreState block rCaller))
    else
      .ok (.enqueued (.getPreState block rCaller))

/-- C3: getPreState routes exactly as specified: BlockNotInForkChoice when
the parent is missing, a checkpoint-cache hit short-circuits a cross-epoch
request, a state-cache hit short-circuits a same-epoch request, and every
remaining case enqueues the job. -/
theorem c3_get_pre_state_routing (deps : RegenDeps) (block : BeaconBlock)
    (rCaller : RegenCaller) :
    getPreState deps block rCaller = getPreStateSpec deps block rCaller := by
  rw [getPreState, getPreStateSpec]
  cases hp : deps.forkChoice.getBlockHex block.parentRoot with
  | none => rfl
  | some parent =>
    by_cases hlt : computeEpochAtSlot parent.slot < computeEpochAtSlot block.slot
    · have hne : computeEpochAtSlot parent.slot ≠ computeEpochAtSlot block.slot := Nat.ne_of_lt hlt
      simp [hlt, hne]
    · by_cases heq : computeEpochAtSlot parent.slot = computeEpochAtSlot block.slot
      · simp [hlt, heq]
      · simp [hlt, heq]

/-- C5: a state-cache hit is served synchronously by getState with no job
pushed onto the queue. -/
theorem c5_get_state_cache_hit_synchronous (deps : RegenDeps) (r : RootHex)
    (c : RegenCaller) (s : BeaconState) (h : deps.stateCache r = some s) :
    getState deps r c = .cached s := by
  rw [getState, h]

def depsW5 : RegenDeps where
  forkChoice := ⟨fun _ => none, ⟨0, "fin"⟩⟩
  stateCache := fun root => if root = "aa" then some ⟨32, 1, 2, 3, 4⟩ else none
  checkpointGetLatest := fun _ _ => none
  dependantRootCacheNext := fun _ _ => []
  readCheckpointState := fun _ _ => none
  hashTreeRoot := fun _ => "h"

/-- Witness for C5: a concrete cache hit served without enqueueing. -/
theorem c5_get_state_cache_hit_synchronous_witness :
    depsW5.stateCache "aa" = some ⟨32, 1, 2, 3, 4⟩ ∧
      getState depsW5 "aa" "caller" = .cached ⟨32, 1, 2, 3, 4⟩ :=
  ⟨by decide, c5_get_state_cache_hit_synchronous depsW5 "aa" "caller" ⟨32, 1, 2, 3, 4⟩ (by decide)⟩

/-- Checkpoint as passed to getAttesterShuffling. -/
structure Checkpoint where
  epoch : Epoch
  root : RootHex
deriving DecidableEq, Repr

/-- First live state of a dependant-root index bucket: the source iterates
the weak references, returns the first that dereferences and deletes dead
entries in place; only the first live state is observable in the result. -/
def firstLiveState (bucket : List (Option BeaconState)) : Option BeaconState :=
  (bucket.filterMap id).head?

/-- Head fast path of getAttesterShuffling (queued.ts lines 200-208): an
else-if chain on the head epoch against the current, next and previous
epochs, each returning the matching shuffling when the corresponding
dependant root of the head summary equals the requested one. -/
def headShufflingCheck (st : RegenState) (epochCurr epochNext epochPrev : Epoch)
    (dependantRoot : RootHex) : Option AttesterShuffling :=
  match st.headState with
  | none => none
  | some headState =>
    if st.head.epoch = epochCurr then
      if st.head.dependantRootCurr = dependantRoot then some headState.currentShuffling else none
    else if st.head.epoch = epochNext then
      if st.head.dependantRootNext = dependantRoot then some headState.nextShuffling else none
    else if st.head.epoch = epochPrev then
      if st.head.dependantRootPrev = dependantRoot then some headState.previousShuffling else none
    else none

/-- Head fast path as the claim words it: three independent guarded
returns tried in order, each firing when its epoch equation and dependant
root equation both hold. -/
def headShufflingCheckSpec (st : RegenState) (epochCurr epochNext epochPrev : Epoch)
    (dependantRoot : RootHex) : Option AttesterShuffling :=
  match st.headState with
  | none => none
  | some headState =>
    if st.head.epoch = epochCurr ∧ st.head.dependantRootCurr = dependantRoot then
      some headState.currentShuffling
    else if st.head.epoch = epochNext ∧ st.head.dependantRootNext = dependantRoot then
      some headState.nextShuffling
    else if st.head.epoch = epochPrev ∧ st.head.dependantRootPrev = dependantRoot then
      some headState.previousShuffling
    else none

/-- Index probes and fallback of getAttesterShuffling (queued.ts lines
210-262): current shufflings at the current epoch, next shufflings at the
next-shuffling epoch, previous shufflings at the previous-shuffling epoch,
always in the dependantRootCacheNext table, then the persistent checkpoint
state at the next-shuffling epoch. -/
def attesterShufflingFromIndex (deps : RegenDeps) (epochCurr epochNext epochPrev : Epoch)
    (dependantRoot : RootHex) : Except RegenErr AttesterShuffling :=
  match firstLiveState (deps.dependantRootCacheNext epochCurr dependantRoot) with
  | some state => .ok state.currentShuffling
  | none =>
    match firstLiveState (deps.dependantRootCacheNext epochNext dependantRoot) with
    | some state => .ok state.nextShuffling
    | none =>
      match firstLiveState (deps.dependantRootCacheNext epochPrev dependantRoot) with
      | some state => .ok state.previousShuffling
      | none =>
        match deps.readCheckpointState epochNext dependantRoot with
        | some state => .ok state.nextShuffling
        | none => .error .persistentNotFound

/-- Index probes and fallback as the claim words them: bucket [E][D] for
currentShuffling, then [E_next][D] for nextShuffling, then [E_prev][D] for
previousShuffling, finally read_checkpoint_state(E_next, D).nextShuffling. -/
def attesterShufflingIndexSpec (deps : RegenDeps) (epochCurr epochNext epochPrev : Epoch)
    (dependantRoot : RootHex) : Except RegenErr AttesterShuffling :=
  match firstLiveState (deps.dependantRootCacheNext epochCurr dependantRoot) with
  | some state => .ok state.currentShuffling
  | none =>
    match firstLiveState (deps.dependantRootCacheNext epochNext dependantRoot) with
    | some state => .ok state.nextShuffling
    | none =>
      match firstLiveState (deps.dependantRootCacheNext epochPrev dependantRoot) with
      | some state => .ok state.previousShuffling
      | none =>
        match deps.readCheckpointState epochNext dependantRoot with
        | some state => .ok state.nextShuffling
        | none => .error .persistentNotFound

/-- getAttesterShuffling (queued.ts lines 186-263): resolve the target
block, compute the three epochs and the dependant root at the
next-shuffling epoch, try the head fast path, then the index probes and
the persistent fallback. -/
def getAttesterShuffling (deps : RegenDeps) (st : RegenState) (targetCheckpoint : Checkpoint)
    (fuel : Nat) : Except RegenErr AttesterShuffling :=
  match deps.forkChoice.getBlockHex targetCheckpoint.root with
  | none => .error .targetBlockNotFound
  | some targetBlock =>
    match getDependantRootAtEpoch deps.forkChoice targetBlock (targetCheckpoint.epoch - 1)
        fuel with
    | .error e => .error e
    | .ok dependantRoot =>
      match headShufflingCheck st targetCheckpoint.epoch (targetCheckpoint.epoch - 1)
          (targetCheckpoint.epoch + 1) dependantRoot with
      | some shuffling => .ok shuffling
      | none =>
        attesterShufflingFromIndex deps targetCheckpoint.epoch (targetCheckpoint.epoch - 1)
          (targetCheckpoint.epoch + 1) dependantRoot

/-- getAttesterShuffling as the claim words it, with E_next written
max(E-1, 0) and the head checked by the three independent guarded
returns. -/
def getAttesterShufflingSpec (deps : RegenDeps) (st : RegenState) (targetCheckpoint : Checkpoint)
    (fuel : Nat) : Except RegenErr AttesterShuffling :=
  match deps.forkChoice.getBlockHex targetCheckpoint.root with
  | none => .error .targetBlockNotFound
  | some targetBlock =>
    match getDependantRootAtEpoch deps.forkChoice targetBlock
        (max (targetCheckpoint.epoch - 1) 0) fuel with
    | .error e => .error e
    | .ok dependantRoot =>
      match headShufflingCheckSpec st targetCheckpoint.epoch (max (targetCheckpoint.epoch - 1) 0)
          (targetCheckpoint.epoch + 1) dependantRoot with
      | some shuffling => .ok shuffling
      | none =>
        attesterShufflingIndexSpec deps targetCheckpoint.epoch (max (targetCheckpoint.epoch - 1) 0)
          (targetCheckpoint.epoch + 1) dependantRoot


lemma headShufflingCheck_eq_spec (st : RegenState) (e : Epoch) (d : RootHex)
    (hwf : st.head.epoch = 0 → st.head.dependantRootCurr = st.head.dependantRootNext) :
    headShufflingCheck st e (e - 1) (e + 1) d = headShufflingCheckSpec st e (e - 1) (e + 1) d := by
  have hsub_lt_succ : e - 1 < e + 1 := Nat.lt_succ_of_le (Nat.sub_le e 1)
  rw [headShufflingCheck, headShufflingCheckSpec]
  cases st.headState with
  | none => rfl
  | some hs =>
    by_cases h1 : st.head.epoch = e
    · by_cases h2 : st.head.dependantRootCurr = d
      · simp [h1, h2]
      · have h5 : ¬ st.head.epoch = e + 1 := fun hc =>
          absurd (h1.symm.trans hc) (Nat.ne_of_lt (Nat.lt_succ_self e))
        by_cases h0 : e = 0
        · have hcn := hwf (h1.trans h0)
          have h3 : ¬ st.head.dependantRootNext = d := fun hc => h2 (hcn.trans hc)
          simp [h1, h2, h0, h3, h5]
        · have hee : ¬ e = e - 1 :=
            Nat.ne_of_gt (Nat.sub_lt (Nat.pos_of_ne_zero h0) Nat.one_pos)
          have h4 : ¬ st.head.epoch = e - 1 := fun hc => hee (h1.symm.trans hc)
          simp [h1, h2, h4, h5, hee]
    · by_cases h4 : st.head.epoch = e - 1
      · have h6 : ¬ st.head.epoch = e + 1 := fun hc =>
          absurd (h4.symm.trans hc) (Nat.ne_of_lt hsub_lt_succ)
        have he0 : ¬ e = 0 := fun h => h1 (h4.trans (by rw [h]))
        have hne : ¬ e - 1 = e :=
          Nat.ne_of_lt (Nat.sub_lt (Nat.pos_of_ne_zero he0) Nat.one_pos)
        simp [h1, h4, h6, hne]
      · by_cases h7 : st.head.epoch = e + 1
        · have hne : ¬ e + 1 = e - 1 := Nat.ne_of_gt hsub_lt_succ
          simp [h1, h4, h7, hne]
        · simp [h1, h4, h7]

/-- C4: getAttesterShuffling computes E, E_next = max(E-1, 0), E_prev =
E+1 and the dependant root of the target block at E_next, checks the head
three ways, then probes the index buckets at [E][D], [E_next][D],
[E_prev][D] in that order, and finally falls back to the persistent
checkpoint state at (E_next, D), returning its nextShuffling. The head
summary hypothesis records that an epoch-0 head carries equal current and
next dependant roots, which setHead always establishes. -/
theorem c4_get_attester_shuffling_order (deps : RegenDeps) (st : RegenState)
    (targetCheckpoint : Checkpoint) (fuel : Nat)
    (hwf : st.head.epoch = 0 → st.head.dependantRootCurr = st.head.dependantRootNext) :
    getAttesterShuffling deps st targetCheckpoint fuel =
      getAttesterShufflingSpec deps st targetCheckpoint fuel := by
  rw [getAttesterShuffling, getAttesterShufflingSpec,
    Nat.max_eq_left (Nat.zero_le (targetCheckpoint.epoch - 1))]
  cases hb : deps.forkChoice.getBlockHex targetCheckpoint.root with
  | none => rfl
  | some targetBlock =>
    dsimp only
    cases hd : getDependantRootAtEpoch deps.forkChoice targetBlock
        (targetCheckpoint.epoch - 1) fuel with
    | error e => rfl
    | ok dependantRoot =>
      dsimp only
      rw [headShufflingCheck_eq_spec st targetCheckpoint.epoch dependantRoot hwf]
      rfl

/-- setHead always leaves an epoch-0 head with equal current and next
dependant roots, since both are then computed at epoch 0; this justifies
the head-summary hypothesis of the attester shuffling theorem. -/
lemma setHead_epoch_zero_dependant_roots (deps : RegenDeps) (st : RegenState) (head : ProtoBlock)
    (potentialHeadState : Option BeaconState) (fuel : Nat) (st' : RegenState)
    (pending : Option RootHex)
    (hret : setHead deps st head potentialHeadState fuel = .ok (st', pending))
    (h0 : st'.head.epoch = 0) :
    st'.head.dependantRootCurr = st'.head.dependantRootNext := by
  rw [setHead] at hret
  cases h1 : getDependantRootAtEpoch deps.forkChoice head (computeEpochAtSlot head.slot) fuel with
  | error e => rw [h1] at hret; exact absurd hret (by simp [Bind.bind, Except.bind])
  | ok r1 =>
  cases h2 : getDependantRootAtEpoch deps.forkChoice head (computeEpochAtSlot head.slot - 1)
      fuel with
  | error e => rw [h1, h2] at hret; exact absurd hret (by simp [Bind.bind, Except.bind])
  | ok r2 =>
  cases h3 : getDependantRootAtEpoch deps.forkChoice head (computeEpochAtSlot head.slot - 2)
      fuel with
  | error e => rw [h1, h2, h3] at hret; exact absurd hret (by simp [Bind.bind, Except.bind])
  | ok r3 =>
  rw [h1, h2, h3] at hret
  simp only [Bind.bind, Except.bind] at hret
  have hhead : st'.head = ⟨head.stateRoot, head.blockRoot, head.slot, computeEpochAtSlot head.slot,
      head.targetRoot, r1, r2, r3⟩ := by
    split at hret <;>
      (simp only [Pure.pure, Except.pure, Except.ok.injEq, Prod.mk.injEq] at hret;
        rw [← hret.1])
  have hepoch : computeEpochAtSlot head.slot = 0 := by rw [hhead] at h0; exact h0
  have h12 : computeEpochAtSlot head.slot - 1 = computeEpochAtSlot head.slot := by
    rw [hepoch]
  rw [h12, h1] at h2
  rw [hhead]
  exact (Except.ok.inj h2).symm

def forkChoiceW4 : ForkChoice where
  getBlockHex := fun root =>
    if root = "t4" then some ⟨33, "t4", "g4", "s4", "t4"⟩ else none
  finalizedCheckpoint := ⟨0, "fin4"⟩

def depsW4 : RegenDeps where
  forkChoice := forkChoiceW4
  stateCache := fun _ => none
  checkpointGetLatest := fun _ _ => none
  dependantRootCacheNext := fun _ _ => []
  readCheckpointState := fun epoch root =>
    if epoch = 0 ∧ root = "fin4" then some ⟨0, 5, 6, 7, 8⟩ else none
  hashTreeRoot := fun _ => "h4"

def regenStW4 : RegenState :=
  ⟨⟨"s4", "t4", 33, 1, "t4", "fin4", "fin4", "fin4"⟩, some ⟨33, 11, 12, 13, 14⟩⟩

/-- Witness for C4: a concrete attester shuffling lookup at a checkpoint in
epoch 1 whose head fast path hits, evaluated on both the source function
and the specification ordering. -/
theorem c4_get_attester_shuffling_order_witness :
    (regenStW4.head.epoch = 0 →
      regenStW4.head.dependantRootCurr = regenStW4.head.dependantRootNext) ∧
    getAttesterShuffling depsW4 regenStW4 ⟨1, "t4"⟩ 2 =
      getAttesterShufflingSpec depsW4 regenStW4 ⟨1, "t4"⟩ 2 :=
  ⟨by decide, c4_get_attester_shuffling_order depsW4 regenStW4 ⟨1, "t4"⟩ 2 (by decide)⟩

/-- REGEN_QUEUE_MAX_LEN (queued.ts line 21), passed as maxLength to the
JobItemQueue in the constructor (queued.ts lines 97-101). -/
def REGEN_QUEUE_MAX_LEN : Nat := 256

/-- Modelled from the spec: JobItemQueue (util/queue, not under src) per
section 4.5 of the specification: a FIFO backlog and a single in-flight
job, with in-flight plus pending bounded by maxLength. -/
structure JobQueue (α : Type) where
  pending : List α
  inFlight : Option α
deriving DecidableEq, Repr

/-- Modelled from the spec: in-flight plus pending job count. -/
def JobQueue.count {α : Type} (q : JobQueue α) : Nat :=
  q.pending.length + (if q.inFlight.isSome then 1 else 0)

/-- Modelled from the spec: submission fails synchronously with QueueFull
when the queue is at capacity, and appends to the FIFO backlog otherwise. -/
def JobQueue.push {α : Type} (maxLength : Nat) (q : JobQueue α) (job : α) :
    Except RegenErr (JobQueue α) :=
  if maxLength ≤ q.count then .error .queueFull
  else .ok {q with pending := q.pending ++ [job]}

/-- Modelled from the spec: the single worker takes the next pending job
when idle. -/
def JobQueue.startNext {α : Type} (q : JobQueue α) : JobQueue α :=
  match q.inFlight, q.pending with
  | none, job :: rest => {pending := rest, inFlight := some job}
  | _, _ => q

/-- Modelled from the spec: the worker completes the in-flight job. -/
def JobQueue.finish {α : Type} (q : JobQueue α) : JobQueue α :=
  {q with inFlight := none}

/-- Events driving the queue: a submission (a rejected one leaves the
queue unchanged, the submitter got QueueFull), the worker picking up a
job, and the worker finishing one. -/
inductive QueueOp (α : Type) where
  | push (job : α)
  | startNext
  | finish
deriving DecidableEq, Repr

/-- One queue event applied to the queue state. -/
def applyQueueOp {α : Type} (maxLength : Nat) (q : JobQueue α) : QueueOp α → JobQueue α
  | .push job =>
    match JobQueue.push maxLength q job with
    | .ok q2 => q2
    | .error _ => q
  | .startNext => q.startNext
  | .finish => q.finish

/-- The queue state reached from the empty queue by a sequence of events,
with maxLength = REGEN_QUEUE_MAX_LEN as wired in the constructor. -/
def execQueueOps {α : Type} (ops : List (QueueOp α)) : JobQueue α :=
  ops.foldl (applyQueueOp REGEN_QUEUE_MAX_LEN) ⟨[], none⟩

lemma applyQueueOp_count_le {α : Type} (maxLength : Nat) (q : JobQueue α) (op : QueueOp α)
    (h : q.count ≤ maxLength) : (applyQueueOp maxLength q op).count ≤ maxLength := by
  cases op with
  | push job =>
    rw [applyQueueOp, JobQueue.push]
    by_cases hfull : maxLength ≤ q.count
    · rw [if_pos hfull]; exact h
    · rw [if_neg hfull]
      have : q.count + 1 ≤ maxLength := Nat.succ_le_of_lt (Nat.lt_of_not_le hfull)
      simpa [JobQueue.count, Nat.add_right_comm] using this
  | startNext =>
    rw [applyQueueOp, JobQueue.startNext]
    cases hif : q.inFlight with
    | some j => simpa [hif] using h
    | none =>
      cases hp : q.pending with
      | nil => simpa [hif, hp] using h
      | cons job rest =>
        simp only [JobQueue.count, hif, hp, List.length_cons, Option.isSome_none,
          Option.isSome_some, if_true, Nat.add_zero] at h ⊢
        omega
  | finish =>
    rw [applyQueueOp, JobQueue.finish]
    refine Nat.le_trans ?_ h
    simp only [JobQueue.count, Option.isSome_none, if_false, Nat.add_zero]
    cases q.inFlight <;> simp

lemma foldl_queue_count_le {α : Type} (ops : List (QueueOp α)) :
    ∀ (q : JobQueue α), q.count ≤ REGEN_QUEUE_MAX_LEN →
      (ops.foldl (applyQueueOp REGEN_QUEUE_MAX_LEN) q).count ≤ REGEN_QUEUE_MAX_LEN := by
  induction ops with
  | nil => intro q h; exact h
  | cons op rest ih =>
    intro q h
    rw [List.foldl_cons]
    exact ih _ (applyQueueOp_count_le REGEN_QUEUE_MAX_LEN q op h)

/-- C8: along every event sequence from the empty queue, the in-flight
plus pending count never exceeds REGEN_QUEUE_MAX_LEN = 256, and any
submission made while the queue is at capacity fails synchronously with
QueueFull. The queue itself is modelled from the specification, maxLength
being the 256 wired in the source constructor. -/
theorem c8_queue_bound_and_queue_full (α : Type) :
    (∀ (ops : List (QueueOp α)), (execQueueOps ops).count ≤ REGEN_QUEUE_MAX_LEN) ∧
    (∀ (q : JobQueue α) (job : α), REGEN_QUEUE_MAX_LEN ≤ q.count →
      JobQueue.push REGEN_QUEUE_MAX_LEN q job = .error .queueFull) := by
  constructor
  · intro ops
    exact foldl_queue_count_le ops ⟨[], none⟩ (by simp [JobQueue.count])
  · intro q job hfull
    rw [JobQueue.push, if_pos hfull]

def fullQueueW8 : JobQueue Nat := ⟨List.replicate 256 0, none⟩

set_option maxRecDepth 8192 in
/-- Witness for C8: the bound evaluated on a concrete event sequence, and
a concrete push against a queue holding 256 jobs failing with QueueFull. -/
theorem c8_queue_bound_and_queue_full_witness :
    (execQueueOps [QueueOp.push 7, QueueOp.startNext]).count ≤ REGEN_QUEUE_MAX_LEN ∧
    REGEN_QUEUE_MAX_LEN ≤ fullQueueW8.count ∧
    JobQueue.push REGEN_QUEUE_MAX_LEN fullQueueW8 1 = .error .queueFull :=
  ⟨(c8_queue_bound_and_queue_full Nat).1 [QueueOp.push 7, QueueOp.startNext],
    by decide,
    (c8_queue_bound_and_queue_full Nat).2 fullQueueW8 1 (by decide)⟩

/-- MAX_EFFECTIVE_BALANCE from lodestar-params (32 ETH in Gwei). -/
def MAX_EFFECTIVE_BALANCE : Nat := 32000000000

/-- MAX_WITHDRAWALS_PER_PAYLOAD from lodestar-params. -/
def MAX_WITHDRAWALS_PER_PAYLOAD : Nat := 16

/-- WITHDRAWAL_PREFIX_BYTES from lodestar-params. -/
def WITHDRAWAL_PREFIX_BYTES : Nat := 1

/-- BLS_WITHDRAWAL_PREFIX from lodestar-params, a single 0x00 byte. -/
def BLS_WITHDRAWAL_PREFIX : List Nat := [0]

/-- ETH1_ADDRESS_WITHDRAWAL_PREFIX from lodestar-params, a single 0x01
byte. -/
def ETH1_ADDRESS_WITHDRAWAL_PREFIX : List Nat := [1]

/-- Validator fields read by the Capella helpers; withdrawal credentials
are the 32 bytes as a list of byte values. -/
structure Validator where
  effectiveBalance : Nat
  withdrawalCredentials : List Nat
  withdrawableEpoch : Epoch
deriving DecidableEq, Repr

instance : Inhabited Validator := ⟨⟨0, [], 0⟩⟩

/-- capella.Withdrawal. -/
structure Withdrawal where
  index : Nat
  validatorIndex : Nat
  address : List Nat
  amount : Nat
deriving DecidableEq, Repr

/-- CachedBeaconStateCapella fields read by getExpectedWithdrawals. -/
structure CapellaState where
  epoch : Epoch
  validators : List Validator
  balances : List Nat
  nextWithdrawalIndex : Nat
  nextWithdrawalValidatorIndex : Nat
deriving DecidableEq, Repr

/-- Loop body of getExpectedWithdrawals: fuel counts the remaining loop
iterations (the source iterates at most validators.length times), count
the withdrawals collected so far (the source reads withdrawals.length),
withdrawalIndex and validatorIndex the two running indices. After a push
the source breaks once count reaches MAX_WITHDRAWALS_PER_PAYLOAD, else it
advances validatorIndex modulo the validator count. -/
def getExpectedWithdrawalsLoop (state : CapellaState) (currentEpoch : Epoch) :
    Nat → Nat → Nat → Nat → List Withdrawal
  | 0, _, _, _ => []
  | Nat.succ fuel, count, withdrawalIndex, validatorIndex =>
    let validator := state.validators.getD validatorIndex default
    let balance := state.balances.getD validatorIndex 0
    if ((0 < balance ∧ validator.withdrawableEpoch ≤ currentEpoch) ∨
        (validator.effectiveBalance = MAX_EFFECTIVE_BALANCE ∧ MAX_EFFECTIVE_BALANCE < balance)) ∧
        validator.withdrawalCredentials.getD 0 0 = ETH1_ADDRESS_WITHDRAWAL_PREFIX.getD 0 0 then
      let amount :=
        if validator.withdrawableEpoch ≤ currentEpoch then balance
        else balance - MAX_EFFECTIVE_BALANCE
      let w : Withdrawal :=
        ⟨withdrawalIndex, validatorIndex, validator.withdrawalCredentials.drop 12, amount⟩
      if MAX_WITHDRAWALS_PER_PAYLOAD ≤ count + 1 then [w]
      else
        w :: getExpectedWithdrawalsLoop state currentEpoch fuel (count + 1) (withdrawalIndex + 1)
          ((validatorIndex + 1) % state.validators.length)
    else
      if MAX_WITHDRAWALS_PER_PAYLOAD ≤ count then []
      else
        getExpectedWithdrawalsLoop state currentEpoch fuel count withdrawalIndex
          ((validatorIndex + 1) % state.validators.length)

/-- getExpectedWithdrawals (capella block processing): currentEpoch is
epochCtx.epoch + 1, the loop starts from nextWithdrawalIndex and
nextWithdrawalValidatorIndex and runs at most validators.length
iterations. -/
def getExpectedWithdrawals (state : CapellaState) : List Withdrawal :=
  getExpectedWithdrawalsLoop state (state.epoch + 1) state.validators.length 0
    state.nextWithdrawalIndex state.nextWithdrawalValidatorIndex

lemma getExpectedWithdrawalsLoop_len_indices (state : CapellaState) (currentEpoch : Epoch) :
    ∀ (fuel count withdrawalIndex validatorIndex : Nat),
      count < MAX_WITHDRAWALS_PER_PAYLOAD →
      (getExpectedWithdrawalsLoop state currentEpoch fuel count withdrawalIndex
          validatorIndex).length ≤ MAX_WITHDRAWALS_PER_PAYLOAD - count ∧
      (getExpectedWithdrawalsLoop state currentEpoch fuel count withdrawalIndex
          validatorIndex).map (fun w => w.index) =
        List.range' withdrawalIndex (getExpectedWithdrawalsLoop state currentEpoch fuel count
          withdrawalIndex validatorIndex).length := by
  intro fuel
  induction fuel with
  | zero =>
    intro count withdrawalIndex validatorIndex _
    exact ⟨Nat.zero_le _, rfl⟩
  | succ fuel ih =>
    intro count withdrawalIndex validatorIndex hcount
    rw [getExpectedWithdrawalsLoop]
    by_cases helig : ((0 < state.balances.getD validatorIndex 0 ∧
        (state.validators.getD validatorIndex default).withdrawableEpoch ≤ currentEpoch) ∨
        ((state.validators.getD validatorIndex default).effectiveBalance = MAX_EFFECTIVE_BALANCE ∧
          MAX_EFFECTIVE_BALANCE < state.balances.getD validatorIndex 0)) ∧
        (state.validators.getD validatorIndex default).withdrawalCredentials.getD 0 0 =
          ETH1_ADDRESS_WITHDRAWAL_PREFIX.getD 0 0
    · rw [if_pos helig]
      by_cases hbreak : MAX_WITHDRAWALS_PER_PAYLOAD ≤ count + 1
      · rw [if_pos hbreak]
        refine ⟨?_, ?_⟩
        · simpa using Nat.le_sub_of_add_le (Nat.add_comm 1 count ▸ Nat.succ_le_of_lt hcount)
        · simp [List.range'_succ]
      · rw [if_neg hbreak]
        obtain ⟨ihlen, ihmap⟩ := ih (count + 1) (withdrawalIndex + 1)
          ((validatorIndex + 1) % state.validators.length) (Nat.lt_of_not_le hbreak)
        refine ⟨?_, ?_⟩
        · rw [List.length_cons]
          omega
        · rw [List.map_cons, List.length_cons, List.range'_succ, ihmap]
    · rw [if_neg helig, if_neg (Nat.not_le.mpr hcount)]
      exact ih count withdrawalIndex ((validatorIndex + 1) % state.validators.length) hcount

/-- C9: getExpectedWithdrawals returns at most
MAX_WITHDRAWALS_PER_PAYLOAD withdrawals, and their withdrawal indices are
consecutive starting at state.nextWithdrawalIndex. -/
theorem c9_expected_withdrawals_bounded_consecutive (state : CapellaState) :
    (getExpectedWithdrawals state).length ≤ MAX_WITHDRAWALS_PER_PAYLOAD ∧
    (getExpectedWithdrawals state).map (fun w => w.index) =
      List.range' state.nextWithdrawalIndex (getExpectedWithdrawals state).length := by
  obtain ⟨hlen, hmap⟩ := getExpectedWithdrawalsLoop_len_indices state (state.epoch + 1)
    state.validators.length 0 state.nextWithdrawalIndex state.nextWithdrawalValidatorIndex
    (by rw [MAX_WITHDRAWALS_PER_PAYLOAD]; exact Nat.succ_pos 15)
  exact ⟨by simpa using hlen, hmap⟩

/-- capella.BLSToExecutionChange message. -/
structure BLSToExecutionChange where
  validatorIndex : Nat
  fromBlsPubkey : List Nat
  toExecutionAddress : List Nat
deriving DecidableEq, Repr

/-- The three throws of processBlsToExecutionChange. -/
inductive BlsChangeError where
  | invalidValidatorIndex
  | invalidCredentialKind
  | invalidCredentials
deriving DecidableEq, Repr

/-- Uint8Array.prototype.set(source, offset) on a typed array: overwrite
source.length bytes of target starting at offset (the source code only
calls it with the write fitting inside the target). -/
def typedArraySet (target source : List Nat) (offset : Nat) : List Nat :=
  target.take offset ++ source ++ target.drop (offset + source.length)

/-- processBlsToExecutionChange, embedded over a validator registry (the
only state the function touches) with the SHA-256 digest passed in as an
opaque function. All three checks precede any mutation, so an error leaves
the registry unchanged; on success the three Uint8Array.set writes rewrite
the withdrawal credentials. -/
def processBlsToExecutionChange (digest : List Nat → List Nat) (validatorsReg : List Validator)
    (addressChange : BLSToExecutionChange) : Except BlsChangeError (List Validator) :=
  if validatorsReg.length ≤ addressChange.validatorIndex then
    .error .invalidValidatorIndex
  else
    let validator := validatorsReg.getD addressChange.validatorIndex default
    if ¬ validator.withdrawalCredentials.take WITHDRAWAL_PREFIX_BYTES = BLS_WITHDRAWAL_PREFIX then
      .error .invalidCredentialKind
    else if ¬ ((validator.withdrawalCredentials.drop WITHDRAWAL_PREFIX_BYTES).take
          (32 - WITHDRAWAL_PREFIX_BYTES) =
        ((digest addressChange.fromBlsPubkey).drop WITHDRAWAL_PREFIX_BYTES).take
          (32 - WITHDRAWAL_PREFIX_BYTES)) then
      .error .invalidCredentials
    else
      let newCredentials :=
        typedArraySet
          (typedArraySet
            (typedArraySet validator.withdrawalCredentials ETH1_ADDRESS_WITHDRAWAL_PREFIX 0)
            (List.replicate 11 0) WITHDRAWAL_PREFIX_BYTES)
          addressChange.toExecutionAddress 12
      .ok (validatorsReg.set addressChange.validatorIndex
        {validator with withdrawalCredentials := newCredentials})

/-- processBlsToExecutionChange as the claim words it: fail exactly when
the validator index is out of range, or byte 0 of the credentials is not
the BLS withdrawal prefix byte, or bytes 1..31 of the credentials differ
from bytes 1..31 of the digest of fromBlsPubkey; on success the
credentials become the ETH1 prefix byte, eleven zero bytes, then the
20-byte execution address. -/
def processBlsToExecutionChangeSpec (digest : List Nat → List Nat)
    (validatorsReg : List Validator) (addressChange : BLSToExecutionChange) :
    Except BlsChangeError (List Validator) :=
  if validatorsReg.length ≤ addressChange.validatorIndex then
    .error .invalidValidatorIndex
  else
    let validator := validatorsReg.getD addressChange.validatorIndex default
    if ¬ validator.withdrawalCredentials.getD 0 0 = BLS_WITHDRAWAL_PREFIX.getD 0 0 then
      .error .invalidCredentialKind
    else if ¬ (validator.withdrawalCredentials.drop 1 =
        ((digest addressChange.fromBlsPubkey).drop 1).take 31) then
      .error .invalidCredentials
    else
      .ok (validatorsReg.set addressChange.validatorIndex
        {validator with withdrawalCredentials :=
          ETH1_ADDRESS_WITHDRAWAL_PREFIX ++ List.replicate 11 0 ++
            addressChange.toExecutionAddress})

/-- C10: with 32-byte withdrawal credentials and a 20-byte execution
address, processBlsToExecutionChange agrees with the claim: it throws,
leaving the registry unchanged, exactly when the validator index is out of
range, the credential prefix byte is not the BLS prefix, or bytes 1..31 of
the credentials differ from bytes 1..31 of the pubkey digest; on success
the credentials are rewritten to prefix byte 1, eleven zero bytes, then
the execution address. -/
theorem c10_process_bls_to_execution_change (digest : List Nat → List Nat)
    (validatorsReg : List Validator) (addressChange : BLSToExecutionChange)
    (hlen :
      (validatorsReg.getD addressChange.validatorIndex default).withdrawalCredentials.length = 32)
    (haddr : addressChange.toExecutionAddress.length = 20) :
    processBlsToExecutionChange digest validatorsReg addressChange =
      processBlsToExecutionChangeSpec digest validatorsReg addressChange := by
  simp only [processBlsToExecutionChange, processBlsToExecutionChangeSpec]
  by_cases hidx : validatorsReg.length ≤ addressChange.validatorIndex
  · rw [if_pos hidx, if_pos hidx]
  · rw [if_neg hidx, if_neg hidx]
    obtain ⟨c0, rest, hcreds⟩ : ∃ c0 rest,
        (validatorsReg.getD addressChange.validatorIndex default).withdrawalCredentials =
          c0 :: rest := by
      cases hc : (validatorsReg.getD addressChange.validatorIndex default).withdrawalCredentials
        with
      | nil => rw [hc] at hlen; exact absurd hlen (by decide)
      | cons a l => exact ⟨a, l, rfl⟩
    have hrest : rest.length = 31 := by
      rw [hcreds] at hlen
      simpa using hlen
    rw [hcreds]
    have hpre : (c0 :: rest).take WITHDRAWAL_PREFIX_BYTES = BLS_WITHDRAWAL_PREFIX ↔
        (c0 :: rest).getD 0 0 = BLS_WITHDRAWAL_PREFIX.getD 0 0 := by
      simp [WITHDRAWAL_PREFIX_BYTES, BLS_WITHDRAWAL_PREFIX]
    by_cases hp : (c0 :: rest).getD 0 0 = BLS_WITHDRAWAL_PREFIX.getD 0 0
    · have hnn1 : ¬ ¬ (c0 :: rest).take WITHDRAWAL_PREFIX_BYTES = BLS_WITHDRAWAL_PREFIX :=
        not_not_intro (hpre.mpr hp)
      have hnn2 : ¬ ¬ (c0 :: rest).getD 0 0 = BLS_WITHDRAWAL_PREFIX.getD 0 0 :=
        not_not_intro hp
      rw [if_neg hnn1, if_neg hnn2]
      have hbytes : ((c0 :: rest).drop WITHDRAWAL_PREFIX_BYTES).take (32 - WITHDRAWAL_PREFIX_BYTES)
          = rest := by
        rw [WITHDRAWAL_PREFIX_BYTES]
        simpa using List.take_of_length_le (Nat.le_of_eq hrest)
      have hdig : ((digest addressChange.fromBlsPubkey).drop WITHDRAWAL_PREFIX_BYTES).take
          (32 - WITHDRAWAL_PREFIX_BYTES) =
          ((digest addressChange.fromBlsPubkey).drop 1).take 31 := by
        rw [WITHDRAWAL_PREFIX_BYTES]
      have hdrop : (c0 :: rest).drop 1 = rest := rfl
      rw [hbytes, hdig, hdrop]
      by_cases hb : rest = ((digest addressChange.fromBlsPubkey).drop 1).take 31
      · have hnb : ¬ ¬ rest = ((digest addressChange.fromBlsPubkey).drop 1).take 31 :=
          not_not_intro hb
        simp only [if_neg hnb]
        have hset : typedArraySet
            (typedArraySet
              (typedArraySet (c0 :: rest) ETH1_ADDRESS_WITHDRAWAL_PREFIX 0)
              (List.replicate 11 0) WITHDRAWAL_PREFIX_BYTES)
            addressChange.toExecutionAddress 12 =
            ETH1_ADDRESS_WITHDRAWAL_PREFIX ++ List.replicate 11 0 ++
              addressChange.toExecutionAddress := by
          rw [WITHDRAWAL_PREFIX_BYTES, ETH1_ADDRESS_WITHDRAWAL_PREFIX]
          have h1 : typedArraySet (c0 :: rest) [1] 0 = 1 :: rest := by
            simp [typedArraySet]
          rw [h1]
          have h2 : typedArraySet (1 :: rest) (List.replicate 11 0) 1 =
              1 :: (List.replicate 11 0 ++ rest.drop 11) := by
            simp [typedArraySet, List.take_succ_cons, List.drop_succ_cons]
          rw [h2]
          have hrest11 : (List.replicate 11 (0 : Nat) ++ rest.drop 11).drop
              (11 + addressChange.toExecutionAddress.length) = [] := by
            refine List.drop_eq_nil_of_le ?_
            rw [List.length_append, List.length_replicate, List.length_drop, hrest, haddr]
          have htake : (List.replicate 11 (0 : Nat) ++ rest.drop 11).take 11 =
              List.replicate 11 0 :=
            List.take_left' (List.length_replicate 11 0)
          simp [typedArraySet, List.take_succ_cons, List.drop_succ_cons, htake, hrest11]
          omega
        rw [hset]
      · simp only [if_pos hb]
    · have hc1 : ¬ (c0 :: rest).take WITHDRAWAL_PREFIX_BYTES = BLS_WITHDRAWAL_PREFIX :=
        fun hc => hp (hpre.mp hc)
      rw [if_pos hc1, if_pos hp]

def digestW10 : List Nat → List Nat := fun _ => List.replicate 32 7

def validatorW10 : Validator := ⟨32000000000, 0 :: List.replicate 31 7, 0⟩

def changeW10 : BLSToExecutionChange := ⟨0, [13, 14], List.replicate 20 9⟩

/-- Witness for C10: a concrete registry with one validator holding
32-byte BLS credentials matching the digest, evaluated on both the source
function and the claim form. -/
theorem c10_process_bls_to_execution_change_witness :
    ([validatorW10].getD changeW10.validatorIndex default).withdrawalCredentials.length = 32 ∧
    changeW10.toExecutionAddress.length = 20 ∧
    processBlsToExecutionChange digestW10 [validatorW10] changeW10 =
      processBlsToExecutionChangeSpec digestW10 [validatorW10] changeW10 :=
  ⟨by decide, by decide,
    c10_process_bls_to_execution_change digestW10 [validatorW10] changeW10 (by decide) (by decide)⟩
